/- Formal model of the XGC BES loader (FPSDP/Plasma/XGC_Profile/load_XGC_BES.py):
   toroidal-plane bracketing, field-line tracing, equilibrium profile tables,
   density reconstruction and the query engine of XGC_Loader_BES.
   Floating-point arrays are modelled pointwise over the rationals; the IEEE
   special-value behaviour of the out-of-mesh sentinel (np.inf fill values) is
   modelled separately with an explicit extended-value type. -/
import Mathlib

namespace XGCBes

/-- A query point after the Cartesian-to-cylindrical conversion done at the top
of interpolate_data: major radius r, vertical position z, toroidal angle phi.
(The conversion itself, sqrt and arctan2 on the caller's Cartesian input, is a
collaborator and is not part of the claims.) -/
structure QPoint where
  r : ℚ
  z : ℚ
  phi : ℚ

/-- Count of plane angles k * dPHI (k < n) that are at-or-below phi.  This is
np.searchsorted(phi_planes, phi, side = 'right') for the sorted ascending array
phi_planes = arange(n) * dPHI used in get_interp_planes_BES: for a sorted array,
the right-insertion point is exactly the number of entries less-or-equal phi. -/
def searchsorted_right (dPHI phi : ℚ) : ℕ → ℕ
  | 0 => 0
  | n + 1 => searchsorted_right dPHI phi n + (if (n : ℚ) * dPHI ≤ phi then 1 else 0)

/-- get_interp_planes_BES, per angle: the searchsorted index is the next plane
and (index - 1) the previous plane when the field is co-rotating (CO_DIR), with
the wrap to 0 applied when the searchsorted index equals n_plane; the roles are
swapped when counter-rotating.  The wrap is applied after the minus-one, exactly
as in the source. -/
def get_interp_planes_BES (n_plane : ℕ) (CO_DIR : Bool) (piV : ℚ) (phi : ℚ) : ℤ × ℤ :=
  let ss : ℤ := (searchsorted_right (2 * piV / (n_plane : ℚ)) phi n_plane : ℕ)
  if CO_DIR then (ss - 1, if ss = (n_plane : ℤ) then 0 else ss)
  else ((if ss = (n_plane : ℤ) then 0 else ss), ss - 1)

/-- The loader's attribute state after construction.  Scattered-data
interpolants (CloughTocher2DInterpolator, griddata, interp1d closures) are
modelled as function-valued fields; per-plane per-timestep total densities
(self.ne, self.ni composed with griddata over self.points) are modelled as the
functions neGrid / niGrid of (timestep value, plane number, Z, R).  piV is the
floating constant np.pi.  prevplane / nextplane are the two mutable
bracket-plane attributes (set at construction and overwritten by every call of
interpolate_data). -/
structure Loader where
  n_plane : ℕ
  CO_DIR : Bool
  piV : ℚ
  psi_interp : ℚ → ℚ → ℚ
  BR_interp : ℚ → ℚ → ℚ
  BZ_interp : ℚ → ℚ → ℚ
  BPhi_interp : ℚ → ℚ → ℚ
  sqrtFn : ℚ → ℚ
  te0_sp : ℚ → ℚ
  ne0_sp : ℚ → ℚ
  ti0_sp : ℚ → ℚ
  ni0_sp : ℚ → ℚ
  planes : List ℤ
  neGrid : ℕ → ℤ → ℚ → ℚ → ℚ
  niGrid : ℕ → ℤ → ℚ → ℚ → ℚ
  prevplane : List ℤ
  nextplane : List ℤ

/-- phi_planes[idx] with numpy indexing: a negative index counts from the end
(find_interp_positions reaches phi_planes[-1] when prevplane is -1). -/
def planeAngle (S : Loader) (idx : ℤ) : ℚ :=
  (((if idx < 0 then (S.n_plane : ℤ) + idx else idx) : ℤ) : ℚ) * (2 * S.piV / (S.n_plane : ℚ))

/-- Total toroidal angle to trace forward, lines 318-322 of the source:
phiFWD = where(nextplane == 0, 2 pi - phi, phi_planes[nextplane] - phi) in the
co-rotating case, phi_planes[nextplane] - phi otherwise. -/
def phi_FWD (S : Loader) (nextpl : ℤ) (phi : ℚ) : ℚ :=
  if S.CO_DIR then (if nextpl = 0 then S.piV * 2 - phi else planeAngle S nextpl - phi)
  else planeAngle S nextpl - phi

/-- Total toroidal angle to trace backward, lines 320-323 of the source. -/
def phi_BWD (S : Loader) (prevpl : ℤ) (phi : ℚ) : ℚ :=
  if S.CO_DIR then planeAngle S prevpl - phi
  else (if prevpl = 0 then S.piV * 2 - phi else planeAngle S prevpl - phi)

/-- State of one trace direction for one point: current major radius R, current
vertical position Z, accumulated 3D arc length s. -/
structure TState where
  R : ℚ
  Z : ℚ
  s : ℚ
deriving DecidableEq

/-- One explicit first-order sub-step of the field-line integrator (the body of
the N_step loop in find_interp_positions): RdPhi = R * dphi, dR = RdPhi * BR /
BPhi, dZ = RdPhi * BZ / BPhi, s += sqrt(RdPhi^2 + dR^2 + dZ^2), R += dR,
Z += dZ, all interpolants evaluated at the pre-step (Z, R).  This is the
exact-arithmetic (in-hull) step; the branch that zeroes a displacement equal to
the np.inf sentinel can only fire on IEEE infinities and is modelled separately
by trace_substep below.  sqrt is the loader's abstract square-root function. -/
def traceStepQ (S : Loader) (dphi : ℚ) (st : TState) : TState where
  R := st.R + st.R * dphi * S.BR_interp st.Z st.R / S.BPhi_interp st.Z st.R
  Z := st.Z + st.R * dphi * S.BZ_interp st.Z st.R / S.BPhi_interp st.Z st.R
  s := st.s + S.sqrtFn ((st.R * dphi) ^ 2
        + (st.R * dphi * S.BR_interp st.Z st.R / S.BPhi_interp st.Z st.R) ^ 2
        + (st.R * dphi * S.BZ_interp st.Z st.R / S.BPhi_interp st.Z st.R) ^ 2)

/-- The full 20-sub-step trace of one direction (N_step = 20 in the source),
starting from the query point with zero accumulated arc length. -/
def traceQ (S : Loader) (dphi : ℚ) (r z : ℚ) : TState :=
  (traceStepQ S dphi)^[20] { R := r, Z := z, s := 0 }

/-- One row of interp_positions: projected vertical position z, projected major
radius r, and blend weight w of that side. -/
structure PlanePos where
  z : ℚ
  r : ℚ
  w : ℚ
deriving DecidableEq

/-- The trace result for one query point: the backward bracket row
interp_positions[0] and the forward bracket row interp_positions[1]. -/
structure TraceRes where
  bwd : PlanePos
  fwd : PlanePos
deriving DecidableEq

/-- find_interp_positions, per point: trace backward and forward over 20
sub-steps of phiBWD / 20 and phiFWD / 20, then record the two projected
positions, the backward weight s_BWD / (s_BWD + s_FWD) and the forward weight
1 - s_BWD / (s_BWD + s_FWD), exactly as in lines 365-374 of the source.
prevpl and nextpl are this point's entries of the loader's bracket-plane
attributes (set from the same query angles in interpolate_data). -/
def find_interp_positions (S : Loader) (prevpl nextpl : ℤ) (r z phi : ℚ) : TraceRes where
  bwd :=
    { z := (traceQ S (phi_BWD S prevpl phi / 20) r z).Z
    , r := (traceQ S (phi_BWD S prevpl phi / 20) r z).R
    , w := (traceQ S (phi_BWD S prevpl phi / 20) r z).s
          / ((traceQ S (phi_BWD S prevpl phi / 20) r z).s
              + (traceQ S (phi_FWD S nextpl phi / 20) r z).s) }
  fwd :=
    { z := (traceQ S (phi_FWD S nextpl phi / 20) r z).Z
    , r := (traceQ S (phi_FWD S nextpl phi / 20) r z).R
    , w := 1 - (traceQ S (phi_BWD S prevpl phi / 20) r z).s
          / ((traceQ S (phi_BWD S prevpl phi / 20) r z).s
              + (traceQ S (phi_FWD S nextpl phi / 20) r z).s) }

/-- A function is nonnegative everywhere (the defining property of any model of
floating-point sqrt, used as the hypothesis on the loader's abstract sqrt). -/
abbrev NonnegFun (f : ℚ → ℚ) : Prop := ∀ q : ℚ, 0 ≤ f q

/-- The adiabatic density perturbation of calc_total_ne_2D3D, per point:
ne0 * phi / te0 where the equilibrium temperature is strictly positive
(inner_idx = where(te0 > 0)), zero elsewhere (dne_ad is initialised to zeros
and only the inner_idx entries are filled). -/
def dne_ad (ne0 te0 phiV : ℚ) : ℚ :=
  if 0 < te0 then ne0 * phiV / te0 else 0

/-- The adiabatic-corrected density of calc_total_ne_2D3D: the equilibrium
value plus the adiabatic term at the entries where |dne_ad| <= |ne0|
(ad_valid_idx), the pure equilibrium value elsewhere. -/
def ne_with_ad (ne0 te0 phiV : ℚ) : ℚ :=
  if |dne_ad ne0 te0 phiV| ≤ |ne0| then ne0 + dne_ad ne0 te0 phiV else ne0

/-- calc_total_ne_2D3D, per point: the adiabatic-corrected density plus the
non-adiabatic perturbation at the entries where |nane| <= |ne| (na_valid_idx,
taken against the already adiabatic-corrected ne), unchanged elsewhere.  The
source applies the identical formula to electrons (ne0, te0, nane) and to ions
(ni0, ti0, nani). -/
def calc_total_ne_2D3D (ne0 te0 phiV nane : ℚ) : ℚ :=
  if |nane| ≤ |ne_with_ad ne0 te0 phiV| then ne_with_ad ne0 te0 phiV + nane
  else ne_with_ad ne0 te0 phiV

/-- Modelled from the claim wording for comparison with the source: equilibrium
density, plus the adiabatic term exactly where its magnitude does not exceed
the equilibrium density, plus the non-adiabatic term exactly where its
magnitude does not exceed the already adiabatic-corrected density. -/
def spec_ad_corrected (ne0 te0 phiV : ℚ) : ℚ :=
  if |dne_ad ne0 te0 phiV| ≤ ne0 then ne0 + dne_ad ne0 te0 phiV else ne0

/-- Second stage of the claim-worded reconstruction: add the non-adiabatic term
exactly where its magnitude does not exceed the adiabatic-corrected density. -/
def specTotalNe (ne0 te0 phiV nane : ℚ) : ℚ :=
  if |nane| ≤ spec_ad_corrected ne0 te0 phiV then spec_ad_corrected ne0 te0 phiV + nane
  else spec_ad_corrected ne0 te0 phiV

/-- Piecewise-linear walk of interp1d over the remaining sample pairs, called
with the invariant that x is at-or-after the first pair's abscissa: inside a
segment it interpolates linearly, past the last sample it returns the fill
value (bounds_error = False). -/
def interpSeg (x fillv : ℚ) : ℚ × ℚ → List (ℚ × ℚ) → ℚ
  | (x0, y0), [] => if x = x0 then y0 else fillv
  | (x0, y0), (x1, y1) :: rest =>
      if x ≤ x1 then y0 + (y1 - y0) * (x - x0) / (x1 - x0)
      else interpSeg x fillv (x1, y1) rest

/-- scipy.interpolate.interp1d with bounds_error = False and a constant
fill_value, over sorted sample pairs: linear interpolation inside the sampled
range, the fill value outside it. -/
def interp1dEval (pts : List (ℚ × ℚ)) (fillv x : ℚ) : ℚ :=
  match pts with
  | [] => fillv
  | p :: rest => if x < p.1 then fillv else interpSeg x fillv p rest

/-- np.min of a sample list (the source never takes it on an empty array; the
empty case defaults to 0). -/
def listMin : List ℚ → ℚ
  | [] => 0
  | q :: qs => qs.foldl min q

/-- The four equilibrium profile tables built by load_eq_2D3D. -/
structure EqTables where
  ti0_sp : ℚ → ℚ
  ni0_sp : ℚ → ℚ
  te0_sp : ℚ → ℚ
  ne0_sp : ℚ → ℚ

/-- load_eq_2D3D (electron-dynamics path, HaveElectron = True): interp1d tables
over the flux samples with bounds_error = False and fill values 0 for the ion
temperature, min(eq_ni)/10 for the ion density, min(eq_te)/2 for the electron
temperature and min(eq_ne)/10 for the electron density. -/
def load_eq_2D3D (eq_psi eq_ti eq_ni eq_te eq_ne : List ℚ) : EqTables where
  ti0_sp := interp1dEval (eq_psi.zip eq_ti) 0
  ni0_sp := interp1dEval (eq_psi.zip eq_ni) (listMin eq_ni / 10)
  te0_sp := interp1dEval (eq_psi.zip eq_te) (listMin eq_te / 2)
  ne0_sp := interp1dEval (eq_psi.zip eq_ne) (listMin eq_ne / 10)

/-- Decidable form of: every sample abscissa lies strictly below x (so x is
outside the sampled flux range, above it). -/
def allBelow (l : List ℚ) (x : ℚ) : Bool :=
  l.all fun s => decide (s < x)

/-- Decidable form of: every sample abscissa lies strictly above x (so x is
outside the sampled flux range, below it). -/
def allAbove (l : List ℚ) (x : ℚ) : Bool :=
  l.all fun s => decide (x < s)

/-- The runtime failures interpolate_data can hit, together with the
MissingQuantityError that the specification postulates (the source never
defines or raises it; the constructor exists so its absence can be stated).
nameError carries the undefined identifier the Python interpreter reports. -/
inductive QErr where
  | nameError : String → QErr
  | missingQuantity : String → QErr
deriving DecidableEq

/-- One entry of the tuple interpolate_data returns: a 1D array over points, or
a 2D array over timesteps times points. -/
inductive QVal where
  | one : List ℚ → QVal
  | two : List (List ℚ) → QVal
deriving DecidableEq

/-- The flux label at a query point: psi = psi_interp(z, r) (line 400). -/
def psiAt (S : Loader) (p : QPoint) : ℚ :=
  S.psi_interp p.z p.r

/-- The bracket planes interpolate_data derives for one query angle (line 394,
via get_interp_planes_BES with the loader's plane count and field sense). -/
def bracketsOf (S : Loader) (phi : ℚ) : ℤ × ℤ :=
  get_interp_planes_BES S.n_plane S.CO_DIR S.piV phi

/-- The per-plane scattered interpolation loop of interpolate_data (lines
429-436): for j over self.planes, the points whose bracket plane equals
planes[j] receive griddata of that plane's field at their projected position;
points whose bracket plane occurs nowhere in self.planes keep the zeros
initialisation.  Sequential assignment means a later matching j wins. -/
def scatterVal (grid : ℕ → ℤ → ℚ → ℚ → ℚ) (planes : List ℤ) (t : ℕ) (pl : ℤ)
    (zz rr : ℚ) : ℚ :=
  planes.foldl (fun acc q => if pl = q then grid t q zz rr else acc) 0

/-- The blended electron density of one timestep at one query point (line 438):
prevn * interp_positions[1,2] + nextn * interp_positions[0,2], i.e. the
backward-plane interpolation weighted by the forward weight plus the
forward-plane interpolation weighted by the backward weight. -/
def neBlendAt (S : Loader) (t : ℕ) (p : QPoint) : ℚ :=
  scatterVal S.neGrid S.planes t (bracketsOf S p.phi).1
      (find_interp_positions S (bracketsOf S p.phi).1 (bracketsOf S p.phi).2 p.r p.z p.phi).bwd.z
      (find_interp_positions S (bracketsOf S p.phi).1 (bracketsOf S p.phi).2 p.r p.z p.phi).bwd.r
    * (find_interp_positions S (bracketsOf S p.phi).1 (bracketsOf S p.phi).2 p.r p.z p.phi).fwd.w
  + scatterVal S.neGrid S.planes t (bracketsOf S p.phi).2
      (find_interp_positions S (bracketsOf S p.phi).1 (bracketsOf S p.phi).2 p.r p.z p.phi).fwd.z
      (find_interp_positions S (bracketsOf S p.phi).1 (bracketsOf S p.phi).2 p.r p.z p.phi).fwd.r
    * (find_interp_positions S (bracketsOf S p.phi).1 (bracketsOf S p.phi).2 p.r p.z p.phi).bwd.w

/-- The tuple entry interpolate_data appends for one requested quantity name
(lines 454-469): ne and ni are the equilibrium-table lookups when eq is set,
otherwise the traced blends, flattened to 1D when exactly one timestep was
requested; Ti and Te are always the 1D equilibrium lookups; unknown names are
silently skipped.  The full-path ion rows are the untouched zeros
initialisation: for a nonempty timestep list that branch is unreachable (the
query raises first), and for an empty list the loop never writes them. -/
def retFor (S : Loader) (pts : List QPoint) (ts : List ℕ) (eq : Bool)
    (q : String) : Option QVal :=
  if q = "ne" then
    some (if eq then QVal.one (pts.map fun p => S.ne0_sp (psiAt S p))
      else if ts.length = 1 then QVal.one (pts.map (neBlendAt S (ts.headD 0)))
      else QVal.two (ts.map fun t => pts.map (neBlendAt S t)))
  else if q = "ni" then
    some (if eq then QVal.one (pts.map fun p => S.ni0_sp (psiAt S p))
      else if ts.length = 1 then QVal.one (pts.map fun _ => 0)
      else QVal.two (ts.map fun _ => pts.map fun _ => 0))
  else if q = "Ti" then some (QVal.one (pts.map fun p => S.ti0_sp (psiAt S p)))
  else if q = "Te" then some (QVal.one (pts.map fun p => S.te0_sp (psiAt S p)))
  else none

/-- interpolate_data: first overwrites the loader's bracket-plane attributes
from the query's angles (line 394), then either raises — requesting ni on the
non-equilibrium path with at least one timestep reaches the undefined name
prevni at line 453 (or prev_idx at line 450 first, when no electron density was
requested and the plane loop is nonempty) — or returns the tuple of requested
quantities.  The pair is (returned-or-raised result, loader state after the
call). -/
def interpolate_data (S : Loader) (pts : List QPoint) (ts : List ℕ)
    (quant : List String) (eq : Bool) : Except QErr (List QVal) × Loader :=
  (if eq = false ∧ "ni" ∈ quant ∧ ts ≠ [] then
      Except.error (QErr.nameError
        (if "ne" ∈ quant ∨ S.planes = [] then "prevni" else "prev_idx"))
    else Except.ok (quant.filterMap (retFor S pts ts eq)),
   { S with prevplane := pts.map fun p => (bracketsOf S p.phi).1
          , nextplane := pts.map fun p => (bracketsOf S p.phi).2 })

/-- IEEE-style extended value for the float semantics of the out-of-mesh
sentinel: a finite rational, positive infinity (the CloughTocher fill value
np.inf of BR_interp and BZ_interp), negative infinity, or NaN. -/
inductive Flt where
  | fin : ℚ → Flt
  | inf : Flt
  | ninf : Flt
  | nan : Flt
deriving DecidableEq

/-- IEEE multiplication on extended values (finite times infinity follows the
sign of the finite factor; zero times infinity is NaN; NaN propagates). -/
def Flt.mul : Flt → Flt → Flt
  | .nan, _ => .nan
  | _, .nan => .nan
  | .fin a, .fin b => .fin (a * b)
  | .fin a, .inf => if 0 < a then .inf else if a < 0 then .ninf else .nan
  | .inf, .fin b => if 0 < b then .inf else if b < 0 then .ninf else .nan
  | .fin a, .ninf => if 0 < a then .ninf else if a < 0 then .inf else .nan
  | .ninf, .fin b => if 0 < b then .ninf else if b < 0 then .inf else .nan
  | .inf, .inf => .inf
  | .inf, .ninf => .ninf
  | .ninf, .inf => .ninf
  | .ninf, .ninf => .inf

/-- IEEE addition on extended values (infinities of opposite sign give NaN;
NaN propagates). -/
def Flt.add : Flt → Flt → Flt
  | .nan, _ => .nan
  | _, .nan => .nan
  | .fin a, .fin b => .fin (a + b)
  | .fin _, .inf => .inf
  | .inf, .fin _ => .inf
  | .fin _, .ninf => .ninf
  | .ninf, .fin _ => .ninf
  | .inf, .inf => .inf
  | .ninf, .ninf => .ninf
  | .inf, .ninf => .nan
  | .ninf, .inf => .nan

/-- IEEE division on extended values (finite over zero gives a signed infinity,
zero over zero NaN, infinity over a finite keeps or flips its sign, infinity
over infinity NaN; zero is treated as +0). -/
def Flt.div : Flt → Flt → Flt
  | .nan, _ => .nan
  | _, .nan => .nan
  | .fin a, .fin b =>
      if b = 0 then (if a = 0 then .nan else if 0 < a then .inf else .ninf)
      else .fin (a / b)
  | .inf, .fin b => if 0 ≤ b then .inf else .ninf
  | .ninf, .fin b => if 0 ≤ b then .ninf else .inf
  | .fin _, .inf => .fin 0
  | .fin _, .ninf => .fin 0
  | .inf, .inf => .nan
  | .inf, .ninf => .nan
  | .ninf, .inf => .nan
  | .ninf, .ninf => .nan

/-- IEEE square root on extended values, with an abstract nonneg-finite part:
sqrt of a negative or NaN is NaN, sqrt of positive infinity is positive
infinity. -/
def Flt.sqrtF (sq : ℚ → ℚ) : Flt → Flt
  | .fin a => if a < 0 then .nan else .fin (sq a)
  | .inf => .inf
  | .ninf => .nan
  | .nan => .nan

/-- The out-of-mesh guard of find_interp_positions: np.where(dR == np.inf)
zeroes a value exactly when it is +infinity (IEEE equality with +inf is false
for every finite value, for -infinity and for NaN). -/
def zeroIfPosInf : Flt → Flt
  | .inf => .fin 0
  | x => x

/-- One sub-step of the field-line integrator in float special-value semantics,
lines 336-349 (forward) and 350-363 (backward) of the source, which differ only
in the sign of dphi: RdPhi = R * dphi; dR = RdPhi * BR(Z,R) / BPhi(Z,R) and
likewise dZ; the out-of-mesh guard zeroes a displacement only where it is
exactly equal to +infinity (np.where(dR == np.inf)); then
s += sqrt(RdPhi^2 + dR^2 + dZ^2), R += dR, Z += dZ.  Returns (new R, new Z,
new s). -/
def trace_substep (sq : ℚ → ℚ) (BRi BZi BPhii : Flt → Flt → Flt)
    (dphi R Z s : Flt) : Flt × Flt × Flt :=
  let RdPhi := R.mul dphi
  let dR := (RdPhi.mul (BRi Z R)).div (BPhii Z R)
  let dZ := (RdPhi.mul (BZi Z R)).div (BPhii Z R)
  let dRz := zeroIfPosInf dR
  let dZz := zeroIfPosInf dZ
  let s2 := s.add (Flt.sqrtF sq (((RdPhi.mul RdPhi).add (dRz.mul dRz)).add (dZz.mul dZz)))
  (R.add dRz, Z.add dZz, s2)

/-- A small concrete loader snapshot used to evaluate the model at explicit
inputs: four planes, co-rotating field, a rational stand-in for np.pi, simple
interpolants and tables, and bracket-plane attributes left over from
construction. -/
def sampleLoader : Loader where
  n_plane := 4
  CO_DIR := true
  piV := 355 / 113
  psi_interp := fun _ _ => 1 / 2
  BR_interp := fun _ _ => 0
  BZ_interp := fun _ _ => 0
  BPhi_interp := fun _ _ => 1
  sqrtFn := fun _ => 0
  te0_sp := fun x => x + 1
  ne0_sp := fun x => x + 2
  ti0_sp := fun x => x
  ni0_sp := fun x => x + 3
  planes := [0, 1]
  neGrid := fun _ _ _ _ => 5
  niGrid := fun _ _ _ _ => 7
  prevplane := [9]
  nextplane := [9]

/-- A concrete query point used with sampleLoader. -/
def pt0 : QPoint where
  r := 3 / 2
  z := 0
  phi := 1 / 2

/-- The arc length accumulator never becomes negative along the integration:
each sub-step adds one sqrt value. -/
lemma iterate_s_nonneg (S : Loader) (hs : NonnegFun S.sqrtFn) (dphi : ℚ) :
    ∀ (n : ℕ) (st : TState), 0 ≤ st.s → 0 ≤ ((traceStepQ S dphi)^[n] st).s := by
  intro n
  induction n with
  | zero => intro st h; simpa using h
  | succ n ih =>
      intro st h
      rw [Function.iterate_succ_apply]
      refine ih _ ?_
      show 0 ≤ st.s + S.sqrtFn _
      exact add_nonneg h (hs _)

/-- The traced arc length of either direction is nonnegative. -/
lemma traceQ_s_nonneg (S : Loader) (hs : NonnegFun S.sqrtFn) (dphi r z : ℚ) :
    0 ≤ (traceQ S dphi r z).s :=
  iterate_s_nonneg S hs dphi 20 { R := r, Z := z, s := 0 } le_rfl

/-- Walking interp1d segments past samples that all lie strictly below x ends
in the fill value. -/
lemma interpSeg_above (x fillv : ℚ) :
    ∀ (p : ℚ × ℚ) (rest : List (ℚ × ℚ)), p.1 < x → (∀ q ∈ rest, q.1 < x) →
      interpSeg x fillv p rest = fillv := by
  intro p rest
  induction rest generalizing p with
  | nil =>
      intro hp _
      obtain ⟨x0, y0⟩ := p
      simp only [interpSeg]
      rw [if_neg]
      intro hx
      exact absurd hp (by simp [hx])
  | cons q rest ih =>
      intro hp hrest
      obtain ⟨x0, y0⟩ := p
      obtain ⟨x1, y1⟩ := q
      simp only [interpSeg]
      rw [if_neg (by exact not_le.mpr (hrest (x1, y1) (List.mem_cons_self _ _)))]
      exact ih (x1, y1) (hrest (x1, y1) (List.mem_cons_self _ _))
        (fun q hq => hrest q (List.mem_cons_of_mem _ hq))

/-- interp1d returns the fill value at any x strictly above every sample. -/
lemma interp1dEval_above (pts : List (ℚ × ℚ)) (fillv x : ℚ)
    (h : ∀ p ∈ pts, p.1 < x) : interp1dEval pts fillv x = fillv := by
  cases pts with
  | nil => rfl
  | cons p rest =>
      simp only [interp1dEval]
      rw [if_neg (not_lt.mpr (le_of_lt (h p (List.mem_cons_self _ _))))]
      exact interpSeg_above x fillv p rest (h p (List.mem_cons_self _ _))
        (fun q hq => h q (List.mem_cons_of_mem _ hq))

/-- Unpacking the decidable out-of-range test. -/
lemma allBelow_lt (l : List ℚ) (x : ℚ) (h : allBelow l x = true) :
    ∀ s ∈ l, s < x := by
  intro s hs
  have := List.all_eq_true.mp h s hs
  exact of_decide_eq_true this

/-- Unpacking the decidable below-range test. -/
lemma allAbove_lt (l : List ℚ) (x : ℚ) (h : allAbove l x = true) :
    ∀ s ∈ l, x < s := by
  intro s hs
  have := List.all_eq_true.mp h s hs
  exact of_decide_eq_true this

/-- interp1d returns the fill value at any x strictly below every sample (the
first out-of-range guard of interp1dEval). -/
lemma interp1dEval_below (pts : List (ℚ × ℚ)) (fillv x : ℚ)
    (h : ∀ p ∈ pts, x < p.1) : interp1dEval pts fillv x = fillv := by
  cases pts with
  | nil => rfl
  | cons p rest =>
      simp only [interp1dEval]
      rw [if_pos (h p (List.mem_cons_self _ _))]

/-- Four-step unfolding of the searchsorted count. -/
lemma searchsorted_right_four (d phi : ℚ) : searchsorted_right d phi 4
    = 0 + (if ((0:ℕ):ℚ) * d ≤ phi then 1 else 0)
      + (if ((1:ℕ):ℚ) * d ≤ phi then 1 else 0)
      + (if ((2:ℕ):ℚ) * d ≤ phi then 1 else 0)
      + (if ((3:ℕ):ℚ) * d ≤ phi then 1 else 0) := rfl

/-- C2: for every query point the trace result carries the backward weight
s_BWD / (s_BWD + s_FWD), the forward weight as its exact complement, the two
weights sum to 1, and both lie in [0, 1].  Stated in the exact rational model
of the trace, with the loader's square-root model assumed nonnegative;
division follows the convention 0 / 0 = 0 at the degenerate input where both
arc lengths vanish. -/
theorem c2_trace_blend_weights (S : Loader) (prevpl nextpl : ℤ) (r z phi : ℚ)
    (hs : NonnegFun S.sqrtFn) :
    (find_interp_positions S prevpl nextpl r z phi).bwd.w
        = (traceQ S (phi_BWD S prevpl phi / 20) r z).s
          / ((traceQ S (phi_BWD S prevpl phi / 20) r z).s
             + (traceQ S (phi_FWD S nextpl phi / 20) r z).s)
    ∧ (find_interp_positions S prevpl nextpl r z phi).fwd.w
        = 1 - (find_interp_positions S prevpl nextpl r z phi).bwd.w
    ∧ (find_interp_positions S prevpl nextpl r z phi).bwd.w
        + (find_interp_positions S prevpl nextpl r z phi).fwd.w = 1
    ∧ 0 ≤ (find_interp_positions S prevpl nextpl r z phi).bwd.w
    ∧ (find_interp_positions S prevpl nextpl r z phi).bwd.w ≤ 1
    ∧ 0 ≤ (find_interp_positions S prevpl nextpl r z phi).fwd.w
    ∧ (find_interp_positions S prevpl nextpl r z phi).fwd.w ≤ 1 := by
  have ha : 0 ≤ (traceQ S (phi_BWD S prevpl phi / 20) r z).s :=
    traceQ_s_nonneg S hs _ r z
  have hb : 0 ≤ (traceQ S (phi_FWD S nextpl phi / 20) r z).s :=
    traceQ_s_nonneg S hs _ r z
  have e1 : (find_interp_positions S prevpl nextpl r z phi).bwd.w
      = (traceQ S (phi_BWD S prevpl phi / 20) r z).s
        / ((traceQ S (phi_BWD S prevpl phi / 20) r z).s
           + (traceQ S (phi_FWD S nextpl phi / 20) r z).s) := rfl
  have e2 : (find_interp_positions S prevpl nextpl r z phi).fwd.w
      = 1 - (find_interp_positions S prevpl nextpl r z phi).bwd.w := rfl
  have hw0 : 0 ≤ (find_interp_positions S prevpl nextpl r z phi).bwd.w := by
    rw [e1]
    rcases eq_or_lt_of_le (add_nonneg ha hb) with h0 | hpos
    · rw [← h0, div_zero]
    · exact div_nonneg ha hpos.le
  have hw1 : (find_interp_positions S prevpl nextpl r z phi).bwd.w ≤ 1 := by
    rw [e1]
    rcases eq_or_lt_of_le (add_nonneg ha hb) with h0 | hpos
    · rw [← h0, div_zero]
      norm_num
    · exact (div_le_one hpos).mpr (le_add_of_nonneg_right hb)
  refine ⟨e1, e2, by rw [e2]; ring, hw0, hw1, by rw [e2]; linarith, by rw [e2]; linarith⟩

/-- Witness for C2 at a concrete loader and query point. -/
theorem c2_trace_blend_weights_witness :
    NonnegFun sampleLoader.sqrtFn
    ∧ ((find_interp_positions sampleLoader 0 1 (3/2) 0 (1/2)).bwd.w
        = (traceQ sampleLoader (phi_BWD sampleLoader 0 (1/2) / 20) (3/2) 0).s
          / ((traceQ sampleLoader (phi_BWD sampleLoader 0 (1/2) / 20) (3/2) 0).s
             + (traceQ sampleLoader (phi_FWD sampleLoader 1 (1/2) / 20) (3/2) 0).s)
      ∧ (find_interp_positions sampleLoader 0 1 (3/2) 0 (1/2)).fwd.w
          = 1 - (find_interp_positions sampleLoader 0 1 (3/2) 0 (1/2)).bwd.w
      ∧ (find_interp_positions sampleLoader 0 1 (3/2) 0 (1/2)).bwd.w
          + (find_interp_positions sampleLoader 0 1 (3/2) 0 (1/2)).fwd.w = 1
      ∧ 0 ≤ (find_interp_positions sampleLoader 0 1 (3/2) 0 (1/2)).bwd.w
      ∧ (find_interp_positions sampleLoader 0 1 (3/2) 0 (1/2)).bwd.w ≤ 1
      ∧ 0 ≤ (find_interp_positions sampleLoader 0 1 (3/2) 0 (1/2)).fwd.w
      ∧ (find_interp_positions sampleLoader 0 1 (3/2) 0 (1/2)).fwd.w ≤ 1) :=
  ⟨fun _ => le_refl 0,
   c2_trace_blend_weights sampleLoader 0 1 (3/2) 0 (1/2) (fun _ => le_refl 0)⟩

/-- C3 (amended): with four planes and a co-rotating field, query angle
3 pi / 4 brackets between planes 1 and 2; query angle exactly 0 brackets
between planes 0 and 1 (no wrap); the wrap of nextplane to 0 with prevplane 3
happens for angles in the last sector, e.g. 7 pi / 4.  Stated for every
positive value of the stored pi constant. -/
theorem c3_bracket_scenarios (piV : ℚ) (hp : 0 < piV) :
    get_interp_planes_BES 4 true piV (3 * piV / 4) = (1, 2)
    ∧ get_interp_planes_BES 4 true piV 0 = (0, 1)
    ∧ get_interp_planes_BES 4 true piV (7 * piV / 4) = (3, 0) := by
  refine ⟨?_, ?_, ?_⟩
  · have c0 : ((0:ℕ):ℚ) * (2 * piV / ((4:ℕ):ℚ)) ≤ 3 * piV / 4 := by
      push_cast
      rw [zero_mul]
      positivity
    have c1 : ((1:ℕ):ℚ) * (2 * piV / ((4:ℕ):ℚ)) ≤ 3 * piV / 4 := by
      push_cast
      nlinarith
    have c2 : ¬ (((2:ℕ):ℚ) * (2 * piV / ((4:ℕ):ℚ)) ≤ 3 * piV / 4) := by
      push_cast
      intro hx
      nlinarith
    have c3 : ¬ (((3:ℕ):ℚ) * (2 * piV / ((4:ℕ):ℚ)) ≤ 3 * piV / 4) := by
      push_cast
      intro hx
      nlinarith
    have e1 : searchsorted_right (2 * piV / ((4:ℕ):ℚ)) (3 * piV / 4) 4 = 2 := by
      rw [searchsorted_right_four, if_pos c0, if_pos c1, if_neg c2, if_neg c3]
    simp only [get_interp_planes_BES, e1]
    norm_num
  · have c0 : ((0:ℕ):ℚ) * (2 * piV / ((4:ℕ):ℚ)) ≤ 0 := by
      push_cast
      rw [zero_mul]
    have c1 : ¬ (((1:ℕ):ℚ) * (2 * piV / ((4:ℕ):ℚ)) ≤ 0) := by
      push_cast
      intro hx
      nlinarith
    have c2 : ¬ (((2:ℕ):ℚ) * (2 * piV / ((4:ℕ):ℚ)) ≤ 0) := by
      push_cast
      intro hx
      nlinarith
    have c3 : ¬ (((3:ℕ):ℚ) * (2 * piV / ((4:ℕ):ℚ)) ≤ 0) := by
      push_cast
      intro hx
      nlinarith
    have e1 : searchsorted_right (2 * piV / ((4:ℕ):ℚ)) 0 4 = 1 := by
      rw [searchsorted_right_four, if_pos c0, if_neg c1, if_neg c2, if_neg c3]
    simp only [get_interp_planes_BES, e1]
    norm_num
  · have c0 : ((0:ℕ):ℚ) * (2 * piV / ((4:ℕ):ℚ)) ≤ 7 * piV / 4 := by
      push_cast
      rw [zero_mul]
      positivity
    have c1 : ((1:ℕ):ℚ) * (2 * piV / ((4:ℕ):ℚ)) ≤ 7 * piV / 4 := by
      push_cast
      nlinarith
    have c2 : ((2:ℕ):ℚ) * (2 * piV / ((4:ℕ):ℚ)) ≤ 7 * piV / 4 := by
      push_cast
      nlinarith
    have c3 : ((3:ℕ):ℚ) * (2 * piV / ((4:ℕ):ℚ)) ≤ 7 * piV / 4 := by
      push_cast
      nlinarith
    have e1 : searchsorted_right (2 * piV / ((4:ℕ):ℚ)) (7 * piV / 4) 4 = 4 := by
      rw [searchsorted_right_four, if_pos c0, if_pos c1, if_pos c2, if_pos c3]
    simp only [get_interp_planes_BES, e1]
    norm_num

/-- Witness for C3 at a concrete positive pi constant. -/
theorem c3_bracket_scenarios_witness :
    (0 : ℚ) < 355 / 113
    ∧ (get_interp_planes_BES 4 true (355/113) (3 * (355/113) / 4) = (1, 2)
      ∧ get_interp_planes_BES 4 true (355/113) 0 = (0, 1)
      ∧ get_interp_planes_BES 4 true (355/113) (7 * (355/113) / 4) = (3, 0)) :=
  ⟨by norm_num, c3_bracket_scenarios (355/113) (by norm_num)⟩

/-- Counterexample for C3 as stated: at query angle exactly 0 the bracketer
returns (prevplane, nextplane) = (0, 1), not the claimed wrapped pair (3, 0). -/
theorem c3_angle_zero_counterexample :
    get_interp_planes_BES 4 true (355/113) 0 = (0, 1)
    ∧ get_interp_planes_BES 4 true (355/113) 0 ≠ ((3 : ℤ), (0 : ℤ)) := by
  have e : get_interp_planes_BES 4 true (355/113) 0 = (0, 1) := by
    have e1 : searchsorted_right (2 * (355/113) / ((4:ℕ):ℚ)) 0 4 = 1 := by
      rw [searchsorted_right_four]
      norm_num
    simp only [get_interp_planes_BES, e1]
    norm_num
  refine ⟨e, ?_⟩
  rw [e]
  decide

/-- C4 (code-bug evidence): on a backward sub-step the toroidal increment
RdPhi is negative, so at a position outside the mesh (both field interpolants
return the +infinity sentinel, toroidal field BPhi = 1) the displacement
evaluates to -infinity; the guard np.where(dR == np.inf) does not match it,
and the sub-step propagates a -infinity position and a +infinity arc length
instead of the zero increment the claim (and the source comment) require.
The companion conjunct shows the same position on a forward sub-step, where
the displacement is +infinity and the guard works as intended. -/
theorem c4_outside_mesh_sentinel :
    trace_substep (fun q => q) (fun _ _ => Flt.inf) (fun _ _ => Flt.inf)
        (fun _ _ => Flt.fin 1) (Flt.fin (-1/10)) (Flt.fin 2) (Flt.fin 0) (Flt.fin 0)
      = (Flt.ninf, Flt.ninf, Flt.inf)
    ∧ trace_substep (fun q => q) (fun _ _ => Flt.inf) (fun _ _ => Flt.inf)
        (fun _ _ => Flt.fin 1) (Flt.fin (1/10)) (Flt.fin 2) (Flt.fin 0) (Flt.fin 0)
      = (Flt.fin 2, Flt.fin 0, Flt.fin (1/25)) := by
  constructor
  · simp only [trace_substep]
    norm_num [Flt.mul, Flt.add, Flt.div, Flt.sqrtF, zeroIfPosInf]
  · simp only [trace_substep]
    norm_num [Flt.mul, Flt.add, Flt.div, Flt.sqrtF, zeroIfPosInf]

/-- C5: under a nonnegative equilibrium density the guarded reconstruction of
the source equals the claim's description (equilibrium, plus the adiabatic
term exactly where its magnitude does not exceed the equilibrium density,
plus the non-adiabatic term exactly where its magnitude does not exceed the
adiabatic-corrected density), and a zero perturbation reproduces the
equilibrium density exactly. -/
theorem c5_density_reconstruction (ne0 te0 phiV nane : ℚ) (h : 0 ≤ ne0) :
    calc_total_ne_2D3D ne0 te0 phiV nane = specTotalNe ne0 te0 phiV nane
    ∧ calc_total_ne_2D3D ne0 te0 0 0 = ne0 := by
  have habs : |ne0| = ne0 := abs_of_nonneg h
  have hcorr : ne_with_ad ne0 te0 phiV = spec_ad_corrected ne0 te0 phiV := by
    unfold ne_with_ad spec_ad_corrected
    rw [habs]
  have hnn : 0 ≤ spec_ad_corrected ne0 te0 phiV := by
    unfold spec_ad_corrected
    by_cases hg : |dne_ad ne0 te0 phiV| ≤ ne0
    · rw [if_pos hg]
      have := (abs_le.mp hg).1
      linarith
    · rw [if_neg hg]
      exact h
  constructor
  · unfold calc_total_ne_2D3D specTotalNe
    rw [hcorr, abs_of_nonneg hnn]
  · have had : dne_ad ne0 te0 0 = 0 := by
      unfold dne_ad
      split <;> simp
    simp [calc_total_ne_2D3D, ne_with_ad, had, abs_nonneg]

/-- Witness for C5 at concrete values. -/
theorem c5_density_reconstruction_witness :
    (0 : ℚ) ≤ 2
    ∧ (calc_total_ne_2D3D 2 1 1 0 = specTotalNe 2 1 1 0
      ∧ calc_total_ne_2D3D 2 1 0 0 = 2) :=
  ⟨by norm_num, c5_density_reconstruction 2 1 1 0 (by norm_num)⟩

/-- C6 (amended): outside the sampled flux range — strictly above every flux
sample or strictly below every flux sample — every equilibrium profile table
returns its fixed fallback rather than extrapolating: one tenth of the minimum
sample for the electron and ion densities and half the minimum sample for the
electron temperature, but 0 — not half the minimum — for the ion temperature;
the claim's concrete density table (minimum sample 0.5e19) returns exactly
0.05e19 at flux 1.5, and the same fallback below the range, at flux -1. -/
theorem c6_eq_table_fallbacks (eq_psi eq_ti eq_ni eq_te eq_ne : List ℚ) (x : ℚ)
    (h : allBelow eq_psi x = true ∨ allAbove eq_psi x = true) :
    (load_eq_2D3D eq_psi eq_ti eq_ni eq_te eq_ne).ne0_sp x = listMin eq_ne / 10
    ∧ (load_eq_2D3D eq_psi eq_ti eq_ni eq_te eq_ne).ni0_sp x = listMin eq_ni / 10
    ∧ (load_eq_2D3D eq_psi eq_ti eq_ni eq_te eq_ne).te0_sp x = listMin eq_te / 2
    ∧ (load_eq_2D3D eq_psi eq_ti eq_ni eq_te eq_ne).ti0_sp x = 0
    ∧ (load_eq_2D3D [0, 1/2, 1] [8, 6, 4] [1, 1, 1] [8, 6, 4]
        [10^19, 8 * 10^18, 5 * 10^18]).ne0_sp (3/2) = 5 * 10^17
    ∧ (load_eq_2D3D [0, 1/2, 1] [8, 6, 4] [1, 1, 1] [8, 6, 4]
        [10^19, 8 * 10^18, 5 * 10^18]).ne0_sp (-1) = 5 * 10^17 := by
  have key : ∀ (ys : List ℚ) (f : ℚ), interp1dEval (eq_psi.zip ys) f x = f := by
    intro ys f
    rcases h with ha | hb
    · refine interp1dEval_above _ _ _ ?_
      intro p hp
      obtain ⟨a, b⟩ := p
      exact allBelow_lt eq_psi x ha a (List.of_mem_zip hp).1
    · refine interp1dEval_below _ _ _ ?_
      intro p hp
      obtain ⟨a, b⟩ := p
      exact allAbove_lt eq_psi x hb a (List.of_mem_zip hp).1
  refine ⟨key eq_ne _, key eq_ni _, key eq_te _, key eq_ti _, ?_, ?_⟩
  · norm_num [load_eq_2D3D, interp1dEval, interpSeg, listMin, List.zip_cons_cons]
  · norm_num [load_eq_2D3D, interp1dEval, interpSeg, listMin, List.zip_cons_cons]

/-- Witness for C6: the out-of-range hypothesis at concrete samples and query
flux 3/2 (above the sampled range). -/
theorem c6_eq_table_fallbacks_witness :
    (allBelow [0, 1/2, 1] (3/2) = true ∨ allAbove [0, 1/2, 1] (3/2) = true)
    ∧ ((load_eq_2D3D [0, 1/2, 1] [8, 6, 4] [1, 1, 1] [8, 6, 4]
          [10^19, 8 * 10^18, 5 * 10^18]).ne0_sp (3/2)
            = listMin [10^19, 8 * 10^18, 5 * 10^18] / 10
      ∧ (load_eq_2D3D [0, 1/2, 1] [8, 6, 4] [1, 1, 1] [8, 6, 4]
          [10^19, 8 * 10^18, 5 * 10^18]).ni0_sp (3/2) = listMin [1, 1, 1] / 10
      ∧ (load_eq_2D3D [0, 1/2, 1] [8, 6, 4] [1, 1, 1] [8, 6, 4]
          [10^19, 8 * 10^18, 5 * 10^18]).te0_sp (3/2) = listMin [8, 6, 4] / 2
      ∧ (load_eq_2D3D [0, 1/2, 1] [8, 6, 4] [1, 1, 1] [8, 6, 4]
          [10^19, 8 * 10^18, 5 * 10^18]).ti0_sp (3/2) = 0
      ∧ (load_eq_2D3D [0, 1/2, 1] [8, 6, 4] [1, 1, 1] [8, 6, 4]
          [10^19, 8 * 10^18, 5 * 10^18]).ne0_sp (3/2) = 5 * 10^17
      ∧ (load_eq_2D3D [0, 1/2, 1] [8, 6, 4] [1, 1, 1] [8, 6, 4]
          [10^19, 8 * 10^18, 5 * 10^18]).ne0_sp (-1) = 5 * 10^17) :=
  ⟨Or.inl (by norm_num [allBelow]),
   c6_eq_table_fallbacks [0, 1/2, 1] [8, 6, 4] [1, 1, 1] [8, 6, 4]
     [10^19, 8 * 10^18, 5 * 10^18] (3/2) (Or.inl (by norm_num [allBelow]))⟩

/-- Counterexample for C6 as stated: the ion temperature table built from
samples with minimum 4 returns fallback 0 outside the sampled range, not half
the minimum (which would be 2). -/
theorem c6_ti_fallback_counterexample :
    (load_eq_2D3D [0, 1/2, 1] [8, 6, 4] [1, 1, 1] [8, 6, 4] [1, 1, 1]).ti0_sp (3/2) = 0
    ∧ (0 : ℚ) ≠ listMin [8, 6, 4] / 2 := by
  constructor
  · norm_num [load_eq_2D3D, interp1dEval, interpSeg, List.zip_cons_cons]
  · norm_num [listMin]

/-- C1: on the full (non-equilibrium) query path interpolate_data returns the
per-quantity tuple, and the electron-density entry is, for every timestep and
query point, the crossed blend of line 438: the backward-plane scattered
interpolation at the backward projected position times the forward weight,
plus the forward-plane scattered interpolation at the forward projected
position times the backward weight, the weights being the trace result's
own-side arc-length weights. -/
theorem c1_crossed_blend (S : Loader) (pts : List QPoint) (ts : List ℕ)
    (quant : List String) (t : ℕ) (p : QPoint)
    (_hne : "ne" ∈ quant) (hni : ¬ ("ni" ∈ quant)) :
    (interpolate_data S pts ts quant false).1
        = Except.ok (quant.filterMap (retFor S pts ts false))
    ∧ retFor S pts ts false "ne"
        = some (if ts.length = 1 then QVal.one (pts.map (neBlendAt S (ts.headD 0)))
            else QVal.two (ts.map fun tt => pts.map (neBlendAt S tt)))
    ∧ neBlendAt S t p
        = scatterVal S.neGrid S.planes t (bracketsOf S p.phi).1
            (find_interp_positions S (bracketsOf S p.phi).1 (bracketsOf S p.phi).2 p.r p.z p.phi).bwd.z
            (find_interp_positions S (bracketsOf S p.phi).1 (bracketsOf S p.phi).2 p.r p.z p.phi).bwd.r
          * (find_interp_positions S (bracketsOf S p.phi).1 (bracketsOf S p.phi).2 p.r p.z p.phi).fwd.w
        + scatterVal S.neGrid S.planes t (bracketsOf S p.phi).2
            (find_interp_positions S (bracketsOf S p.phi).1 (bracketsOf S p.phi).2 p.r p.z p.phi).fwd.z
            (find_interp_positions S (bracketsOf S p.phi).1 (bracketsOf S p.phi).2 p.r p.z p.phi).fwd.r
          * (find_interp_positions S (bracketsOf S p.phi).1 (bracketsOf S p.phi).2 p.r p.z p.phi).bwd.w := by
  refine ⟨?_, rfl, rfl⟩
  simp only [interpolate_data]
  rw [if_neg]
  rintro ⟨-, hmem, -⟩
  exact hni hmem

/-- Witness for C1 at a concrete loader, point and two timesteps. -/
theorem c1_crossed_blend_witness :
    ("ne" ∈ ["ne"] ∧ ¬ ("ni" ∈ ["ne"]))
    ∧ ((interpolate_data sampleLoader [pt0] [0, 1] ["ne"] false).1
          = Except.ok ((["ne"] : List String).filterMap (retFor sampleLoader [pt0] [0, 1] false))
      ∧ retFor sampleLoader [pt0] [0, 1] false "ne"
          = some (if ([0, 1] : List ℕ).length = 1
              then QVal.one ([pt0].map (neBlendAt sampleLoader (([0, 1] : List ℕ).headD 0)))
              else QVal.two (([0, 1] : List ℕ).map fun tt => [pt0].map (neBlendAt sampleLoader tt)))
      ∧ neBlendAt sampleLoader 0 pt0
          = scatterVal sampleLoader.neGrid sampleLoader.planes 0 (bracketsOf sampleLoader pt0.phi).1
              (find_interp_positions sampleLoader (bracketsOf sampleLoader pt0.phi).1 (bracketsOf sampleLoader pt0.phi).2 pt0.r pt0.z pt0.phi).bwd.z
              (find_interp_positions sampleLoader (bracketsOf sampleLoader pt0.phi).1 (bracketsOf sampleLoader pt0.phi).2 pt0.r pt0.z pt0.phi).bwd.r
            * (find_interp_positions sampleLoader (bracketsOf sampleLoader pt0.phi).1 (bracketsOf sampleLoader pt0.phi).2 pt0.r pt0.z pt0.phi).fwd.w
          + scatterVal sampleLoader.neGrid sampleLoader.planes 0 (bracketsOf sampleLoader pt0.phi).2
              (find_interp_positions sampleLoader (bracketsOf sampleLoader pt0.phi).1 (bracketsOf sampleLoader pt0.phi).2 pt0.r pt0.z pt0.phi).fwd.z
              (find_interp_positions sampleLoader (bracketsOf sampleLoader pt0.phi).1 (bracketsOf sampleLoader pt0.phi).2 pt0.r pt0.z pt0.phi).fwd.r
            * (find_interp_positions sampleLoader (bracketsOf sampleLoader pt0.phi).1 (bracketsOf sampleLoader pt0.phi).2 pt0.r pt0.z pt0.phi).bwd.w) :=
  ⟨⟨by simp, by simp⟩,
   c1_crossed_blend sampleLoader [pt0] [0, 1] ["ne"] 0 pt0 (by simp) (by simp)⟩

/-- C7 (amended): requesting ion density on the full path with a nonempty
timestep list makes the query fail with an unhandled NameError on the
undefined identifier — the source defines no MissingQuantityError and never
raises one — and before failing the call has already overwritten the loader's
bracket-plane attributes with the brackets of the query's own angles. -/
theorem c7_missing_quantity_error (S : Loader) (pts : List QPoint) (ts : List ℕ)
    (quant : List String) (hni : "ni" ∈ quant) (hts : ts ≠ []) :
    (interpolate_data S pts ts quant false).1
        = Except.error (QErr.nameError
            (if "ne" ∈ quant ∨ S.planes = [] then "prevni" else "prev_idx"))
    ∧ (interpolate_data S pts ts quant false).1
        ≠ Except.error (QErr.missingQuantity "ni")
    ∧ (interpolate_data S pts ts quant false).2.prevplane
        = pts.map fun p => (bracketsOf S p.phi).1 := by
  have hcond : (True ∧ "ni" ∈ quant ∧ ts ≠ []) := ⟨trivial, hni, hts⟩
  refine ⟨?_, ?_, rfl⟩
  · simp only [interpolate_data]
    rw [if_pos hcond]
  · simp only [interpolate_data]
    rw [if_pos hcond]
    simp

/-- Witness for C7 at a concrete query requesting both densities. -/
theorem c7_missing_quantity_error_witness :
    ("ni" ∈ ["ne", "ni"] ∧ ([0] : List ℕ) ≠ [])
    ∧ ((interpolate_data sampleLoader [pt0] [0] ["ne", "ni"] false).1
          = Except.error (QErr.nameError
              (if "ne" ∈ ["ne", "ni"] ∨ sampleLoader.planes = [] then "prevni" else "prev_idx"))
      ∧ (interpolate_data sampleLoader [pt0] [0] ["ne", "ni"] false).1
          ≠ Except.error (QErr.missingQuantity "ni")
      ∧ (interpolate_data sampleLoader [pt0] [0] ["ne", "ni"] false).2.prevplane
          = [pt0].map fun p => (bracketsOf sampleLoader p.phi).1) :=
  ⟨⟨by simp, by simp⟩,
   c7_missing_quantity_error sampleLoader [pt0] [0] ["ne", "ni"] (by simp) (by simp)⟩

/-- Counterexample for C7 as stated: the concrete ion-density query fails with
a NameError (not a MissingQuantityError) and has modified the loader's
bracket-plane attribute. -/
theorem c7_counterexample :
    (interpolate_data sampleLoader [pt0] [0] ["ne", "ni"] false).1
        = Except.error (QErr.nameError "prevni")
    ∧ QErr.nameError "prevni" ≠ QErr.missingQuantity "ni"
    ∧ (interpolate_data sampleLoader [pt0] [0] ["ne", "ni"] false).2.prevplane
        ≠ sampleLoader.prevplane := by
  refine ⟨?_, by simp, ?_⟩
  · simp [interpolate_data, sampleLoader]
  · have hbr : bracketsOf sampleLoader (1/2) = (0, 1) := by
      have e1 : searchsorted_right (2 * (355/113) / ((4:ℕ):ℚ)) (1/2) 4 = 1 := by
        rw [searchsorted_right_four]
        norm_num
      simp only [bracketsOf, get_interp_planes_BES, sampleLoader, e1]
      norm_num
    have hval : (interpolate_data sampleLoader [pt0] [0] ["ne", "ni"] false).2.prevplane
        = [(bracketsOf sampleLoader pt0.phi).1] := rfl
    rw [hval, show pt0.phi = 1/2 from rfl, hbr]
    show ([0] : List ℤ) ≠ [9]
    decide

/-- C8 (amended): every call of interpolate_data leaves all loader attributes
unchanged except the two bracket-plane attributes, which it overwrites with
the brackets of the query's own toroidal angles (for any quantities, either
path, and even when the call subsequently raises). -/
theorem c8_query_state_effects (S : Loader) (pts : List QPoint) (ts : List ℕ)
    (quant : List String) (eq : Bool) :
    (interpolate_data S pts ts quant eq).2.n_plane = S.n_plane
    ∧ (interpolate_data S pts ts quant eq).2.CO_DIR = S.CO_DIR
    ∧ (interpolate_data S pts ts quant eq).2.piV = S.piV
    ∧ (interpolate_data S pts ts quant eq).2.psi_interp = S.psi_interp
    ∧ (interpolate_data S pts ts quant eq).2.BR_interp = S.BR_interp
    ∧ (interpolate_data S pts ts quant eq).2.BZ_interp = S.BZ_interp
    ∧ (interpolate_data S pts ts quant eq).2.BPhi_interp = S.BPhi_interp
    ∧ (interpolate_data S pts ts quant eq).2.sqrtFn = S.sqrtFn
    ∧ (interpolate_data S pts ts quant eq).2.te0_sp = S.te0_sp
    ∧ (interpolate_data S pts ts quant eq).2.ne0_sp = S.ne0_sp
    ∧ (interpolate_data S pts ts quant eq).2.ti0_sp = S.ti0_sp
    ∧ (interpolate_data S pts ts quant eq).2.ni0_sp = S.ni0_sp
    ∧ (interpolate_data S pts ts quant eq).2.planes = S.planes
    ∧ (interpolate_data S pts ts quant eq).2.neGrid = S.neGrid
    ∧ (interpolate_data S pts ts quant eq).2.niGrid = S.niGrid
    ∧ (interpolate_data S pts ts quant eq).2.prevplane
        = pts.map (fun p => (bracketsOf S p.phi).1)
    ∧ (interpolate_data S pts ts quant eq).2.nextplane
        = pts.map (fun p => (bracketsOf S p.phi).2) :=
  ⟨rfl, rfl, rfl, rfl, rfl, rfl, rfl, rfl, rfl, rfl, rfl, rfl, rfl, rfl, rfl, rfl, rfl⟩

/-- Counterexample for C8 as stated: a query mutates the loader's prevplane
attribute (it was [9] after construction and is overwritten). -/
theorem c8_counterexample :
    (interpolate_data sampleLoader [pt0] [0] ["Te"] true).2.prevplane
      ≠ sampleLoader.prevplane := by
  have hbr : bracketsOf sampleLoader (1/2) = (0, 1) := by
    have e1 : searchsorted_right (2 * (355/113) / ((4:ℕ):ℚ)) (1/2) 4 = 1 := by
      rw [searchsorted_right_four]
      norm_num
    simp only [bracketsOf, get_interp_planes_BES, sampleLoader, e1]
    norm_num
  have hval : (interpolate_data sampleLoader [pt0] [0] ["Te"] true).2.prevplane
      = [(bracketsOf sampleLoader pt0.phi).1] := rfl
  rw [hval, show pt0.phi = 1/2 from rfl, hbr]
  show ([0] : List ℤ) ≠ [9]
  decide

/-- C9 (amended): any full-path query whose requested quantities include ion
density and whose timestep list is nonempty raises an unhandled NameError —
at the undefined name prevni when electron density was also requested (or the
plane list is empty), otherwise at the undefined name prev_idx — so no
nonempty full-path ion-density result is ever returned. -/
theorem c9_ni_name_error (S : Loader) (pts : List QPoint) (ts : List ℕ)
    (quant : List String) (hni : "ni" ∈ quant) (hts : ts ≠ []) :
    (interpolate_data S pts ts quant false).1
      = Except.error (QErr.nameError
          (if "ne" ∈ quant ∨ S.planes = [] then "prevni" else "prev_idx")) := by
  simp only [interpolate_data]
  rw [if_pos (show True ∧ "ni" ∈ quant ∧ ts ≠ [] from ⟨trivial, hni, hts⟩)]

/-- Witness for C9 at a concrete ion-only query (the prev_idx variant). -/
theorem c9_ni_name_error_witness :
    ("ni" ∈ ["ni"] ∧ ([0] : List ℕ) ≠ [])
    ∧ (interpolate_data sampleLoader [pt0] [0] ["ni"] false).1
        = Except.error (QErr.nameError
            (if "ne" ∈ ["ni"] ∨ sampleLoader.planes = [] then "prevni" else "prev_idx")) :=
  ⟨⟨by simp, by simp⟩,
   c9_ni_name_error sampleLoader [pt0] [0] ["ni"] (by simp) (by simp)⟩

/-- Counterexample for C9 as stated: with an empty timestep list the same
ion-density full-path query does not raise; it returns the degenerate empty
2D array (the untouched zeros initialisation has no rows). -/
theorem c9_empty_timesteps_counterexample :
    (interpolate_data sampleLoader [pt0] [] ["ni"] false).1 = Except.ok [QVal.two []]
    ∧ (Except.ok [QVal.two []] : Except QErr (List QVal))
        ≠ Except.error (QErr.nameError "prevni") := by
  constructor
  · rfl
  · intro h
    exact Except.noConfusion h

/-- C10: every query requesting temperatures gets back the equilibrium profile
table evaluated at the flux label interpolated at the query points — the
identical 1D array for every timestep list and for both values of the
equilibrium-only flag, of length equal to the number of points, with no
timestep axis. -/
theorem c10_temperature_queries (S : Loader) (pts : List QPoint) (ts : List ℕ)
    (eq : Bool) :
    retFor S pts ts eq "Te" = some (QVal.one (pts.map fun p => S.te0_sp (psiAt S p)))
    ∧ retFor S pts ts eq "Ti" = some (QVal.one (pts.map fun p => S.ti0_sp (psiAt S p)))
    ∧ (interpolate_data S pts ts ["Te", "Ti"] eq).1
        = Except.ok [QVal.one (pts.map fun p => S.te0_sp (psiAt S p)),
                     QVal.one (pts.map fun p => S.ti0_sp (psiAt S p))]
    ∧ (pts.map fun p => S.te0_sp (psiAt S p)).length = pts.length := by
  refine ⟨rfl, rfl, ?_, by simp⟩
  simp only [interpolate_data]
  rw [if_neg]
  · rfl
  · rintro ⟨-, hmem, -⟩
    simp at hmem

end XGCBes
